import Mathlib

/-!
Shallow embedding of the adaptive-moment-analysis repository.

Sources embedded:
- `src/tuner.py`: benchmark row generation (`_run_benchmark`), the crossover
  search (`_find_crossover`), the benchmark sweep of row lengths, and the
  cache-backed threshold orchestration (`get_optimal_threshold`).
- `src/main.py`: the two-decimal rounding helper (`round_half_up`) and the
  per-row dispatcher (`compute_moment_rows`).

Modelling conventions:
- Python floats (measured durations, moment values) are modelled as rationals;
  the crossover search only compares durations, and the dispatcher only passes
  moment values through the rounding helper, so the order/field structure of ℚ
  is all these claims use.
- The two moment accumulators live in the external C++ module `momentcore`
  (not part of the Python sources); the dispatcher treats them as opaque
  callables, so they are parameters of type `List ℤ → Fin 4 → ℚ` here.
- The on-disk JSON cache file is modelled by the inductive `CacheState`:
  missing file, unreadable/corrupt content (in the source, any exception from
  opening or parsing the file is swallowed), or a parsed record carrying the
  two fields the loader actually reads (`system_id`, `threshold`), each
  possibly absent, plus a flag recording whether the persisted timing tables
  are present.  The value under the threshold key is an arbitrary JSON value
  (`JVal`): the loader never inspects it and returns it as-is, so a record
  can pass the load test with a non-integer threshold or with the timing
  tables missing.  A failing save is modelled in two stages, as in the
  source: `open(CONFIG_PATH, "w")` truncates the existing file before
  `json.dump` runs, so a failure after a successful open destroys the prior
  record (the file is left unreadable), while a failure at open itself
  (e.g. permissions) leaves the prior state undisturbed.  Wall-clock
  measurement is nondeterministic, so the timing tables the benchmark run
  would produce are inputs (oracles) of the model.
- Exceptional control flow is explicit: the model functions are total, and
  every catch-and-continue branch of the source appears as an ordinary case.
-/

namespace MomentAnalysis

/-- Synthetic benchmark row generated by `_run_benchmark` in `src/tuner.py`
for a requested length `n`: the Python list comprehension
`[i % 128 - 64 for i in range(n)]`. -/
def bench_row (n : ℕ) : List ℤ :=
  (List.range n).map (fun i : ℕ => (i : ℤ) % 128 - 64)

/-- The fixed benchmark sweep of `get_optimal_threshold` in `src/tuner.py`:
`list(range(8, 2049, 32))`, i.e. 64 terms starting at 8 with step 32. -/
def row_lengths : List ℕ := List.range' 8 64 32

/-- The ascending key scan of `_find_crossover`: Python's `sorted(keys)`. -/
def sortedKeys (keys : List ℕ) : List ℕ := List.insertionSort (· ≤ ·) keys

/-- Model of `_find_crossover` from `src/tuner.py`.  The two timing tables share the
key list `keys`; `twopass` and `pebay` give each table's duration at a key.
Scans the keys in ascending order and returns the first at which the Pebay
timing is strictly below the two-pass timing; otherwise falls back to
`max(keys)` (the last element of the ascending scan).  `none` models the
`ValueError` Python's `max` raises on an empty table. -/
def find_crossover (keys : List ℕ) (twopass pebay : ℕ → ℚ) : Option ℕ :=
  match (sortedKeys keys).find? (fun n => decide (pebay n < twopass n)) with
  | some n => some n
  | none => (sortedKeys keys).getLast?

/-- A JSON value that can sit under the cache record's `threshold` key: an
integer, or any other JSON value (null, string, float, array, object)
abstracted by its rendering.  The loader in `get_optimal_threshold` never
inspects this value — `config["threshold"]` is returned as-is — so all
non-integer values are interchangeable for the model and carry only a tag. -/
inductive JVal where
  | jint : ℤ → JVal
  | jother : String → JVal
deriving DecidableEq

/-- The integer carried by a `JVal` when it is one (the well-typed
executions); 0 otherwise.  Results record the raw returned value separately. -/
def JVal.toIntD : JVal → ℤ
  | JVal.jint t => t
  | JVal.jother _ => 0

/-- State of the on-disk cache file `~/.momentcore_config.json` as seen by
the loader in `get_optimal_threshold`: the file may be missing, unreadable or
corrupt (any exception while reading/parsing is swallowed by the bare
`except`), or a parsed JSON record whose `system_id` and `threshold` fields
are each present or absent, the threshold value being an arbitrary JSON
value.  The final `Bool` records whether the persisted timing tables
(`twopass`, `pebay`) are present; the loader never reads them, so a record
can be schema-mismatched (tables missing, or a non-integer threshold) and
still pass the load test. -/
inductive CacheState where
  | missing : CacheState
  | corrupt : CacheState
  | record : Option String → Option JVal → Bool → CacheState
deriving DecidableEq

/-- The cache-load test of `get_optimal_threshold`:
`config.get("system_id") == system_id and "threshold" in config`.
Returns the stored threshold value (as-is, whatever its JSON type) exactly
when the file exists, parses, carries a `system_id` equal to the fresh
fingerprint, and has a `threshold` key; the rest of the record — including
the timing tables — is never examined. -/
def cacheHit (system_id : String) : CacheState → Option JVal
  | CacheState.record (some sid) (some v) _ =>
      if sid = system_id then some v else none
  | _ => none

/-- Inputs of one `get_optimal_threshold` call: the fresh system fingerprint,
the current cache-file state, the timing tables a benchmark run would measure
(oracles, since wall-clock timing is nondeterministic), and the fate of the
final cache write: `write_ok` says whether it succeeds as a whole, and when
it fails, `open_ok` says whether `open(CONFIG_PATH, "w")` itself succeeded —
in which case it already truncated the prior file before `json.dump`
failed — or the failure happened at open (prior file untouched). -/
structure TunerEnv where
  system_id : String
  cache : CacheState
  twopass_times : ℕ → ℚ
  pebay_times : ℕ → ℚ
  write_ok : Bool
  open_ok : Bool := true

/-- Observable outcome of one `get_optimal_threshold` call: the value the
call returns (`returned`, which on a cache hit is the stored JSON value
as-is), its integer reading `threshold` (equal to the returned value in
every well-typed execution, 0 when a hit returns a non-integer), whether the
benchmark harness ran, whether the non-fatal cache-write warning was
printed, and the cache-file state afterwards. -/
structure TunerResult where
  returned : JVal
  threshold : ℤ
  benchmarked : Bool
  warned : Bool
  cache : CacheState
deriving DecidableEq

/-- The threshold a fresh benchmark run computes in `get_optimal_threshold`:
`_find_crossover` applied to the two measured tables over `row_lengths`.
The `getD 0` default is unreachable because `row_lengths` is nonempty. -/
def fresh_threshold (env : TunerEnv) : ℤ :=
  (((find_crossover row_lengths env.twopass_times env.pebay_times).getD 0 : ℕ) : ℤ)

/-- Model of `get_optimal_threshold` from `src/tuner.py`.  If `force_retune` is false
and the cache-load test succeeds, the stored threshold value is returned
as-is with no benchmarking.  Otherwise both algorithms are benchmarked over
`row_lengths`, the crossover is computed, and the new record — fingerprint,
threshold and both timing tables — is written back.  A failing write
(`write_ok = false`) only prints a warning; but since the source opens the
file with mode `"w"`, a failure after a successful open has already
truncated the prior record, leaving an unreadable file (`corrupt`), while a
failure at open leaves the file as it was.  The model is total: every
exception path of the source is a case. -/
def get_optimal_threshold (env : TunerEnv) (force_retune : Bool) : TunerResult :=
  match (if force_retune then none else cacheHit env.system_id env.cache) with
  | some v =>
      { returned := v, threshold := v.toIntD, benchmarked := false, warned := false,
        cache := env.cache }
  | none =>
      let threshold := fresh_threshold env
      if env.write_ok then
        { returned := JVal.jint threshold, threshold := threshold,
          benchmarked := true, warned := false,
          cache := CacheState.record (some env.system_id) (some (JVal.jint threshold)) true }
      else
        { returned := JVal.jint threshold, threshold := threshold,
          benchmarked := true, warned := true,
          cache := if env.open_ok then CacheState.corrupt else env.cache }

/-- Model of `round_half_up` from `src/main.py`: `float(f"{value:.2f}")`, i.e. the
value rounded to two decimal places.  Modelled over ℚ as rounding to the
nearest multiple of 1/100, resolving half-way ties upward as the source
function's name states. -/
def round_half_up (value : ℚ) : ℚ := ((round (100 * value) : ℤ) : ℚ) / 100

/-- Model of `compute_moment_rows` from `src/main.py`.  The accumulators
`compute_moments_twopass` and `compute_moments_pebay` are opaque callables
from the external `momentcore` module, passed as parameters; each maps a row
to its four moments.  The loop starts from four empty lists and, for each row
in order, picks the two-pass accumulator when the row is strictly shorter
than the threshold (else Pebay) and appends each of its four rounded moments
to the corresponding output list. -/
def compute_moment_rows (twopass pebay : List ℤ → Fin 4 → ℚ)
    (data : List (List ℤ)) (threshold : ℤ) : Fin 4 → List ℚ :=
  data.foldl
    (fun results row =>
      let algo := if (row.length : ℤ) < threshold then twopass else pebay
      fun i => results i ++ [round_half_up (algo row i)])
    (fun _ => [])

/-- Concrete two-pass timing table from the spec's crossover test vector:
0.5, 0.6, 0.8 seconds at lengths 8, 16, 32. -/
def tpEx : ℕ → ℚ := fun n => if n = 8 then mkRat 1 2 else if n = 16 then mkRat 3 5 else mkRat 4 5

/-- Concrete online timing table from the spec's crossover test vector:
0.7, 0.5, 0.3 seconds at lengths 8, 16, 32. -/
def pbEx : ℕ → ℚ := fun n => if n = 8 then mkRat 7 10 else if n = 16 then mkRat 1 2 else mkRat 3 10

/-- Concrete online timing table from the spec's no-win test vector:
0.9, 0.8, 0.9 seconds at lengths 8, 16, 32. -/
def pbLose : ℕ → ℚ := fun n => if n = 16 then mkRat 4 5 else mkRat 9 10

/-- A degenerate timing table where every measured duration is zero, as can
happen with clock-granularity benchmark anomalies. -/
def tpZero : ℕ → ℚ := fun _ => 0

theorem mem_sortedKeys {keys : List ℕ} {n : ℕ} : n ∈ sortedKeys keys ↔ n ∈ keys :=
  (List.perm_insertionSort _ keys).mem_iff

theorem sorted_sortedKeys (keys : List ℕ) : (sortedKeys keys).Sorted (· ≤ ·) :=
  List.sorted_insertionSort _ keys

theorem sortedKeys_ne_nil {keys : List ℕ} (h : keys ≠ []) : sortedKeys keys ≠ [] := by
  intro hs
  have hp := (List.perm_insertionSort (fun a b : ℕ => a ≤ b) keys).symm
  unfold sortedKeys at hs
  rw [hs] at hp
  exact h (List.Perm.eq_nil hp)

theorem find?_sorted_not_before {p : ℕ → Bool} :
    ∀ {l : List ℕ}, l.Sorted (· ≤ ·) → ∀ {a : ℕ}, l.find? p = some a →
      ∀ b ∈ l, b < a → p b = false := by
  intro l
  induction l with
  | nil => intro _ a h; cases h
  | cons x xs ih =>
    intro hs a hfind b hb hba
    rw [List.sorted_cons] at hs
    rw [List.find?_cons] at hfind
    cases hpx : p x with
    | true =>
      rw [hpx] at hfind
      have hax : a = x := by simpa using hfind.symm
      rcases List.mem_cons.mp hb with rfl | hb2
      · omega
      · exact absurd (hs.1 b hb2) (by omega)
    | false =>
      rw [hpx] at hfind
      rcases List.mem_cons.mp hb with rfl | hb2
      · exact hpx
      · exact ih hs.2 hfind b hb2 hba

theorem getLast?_sorted_max :
    ∀ {l : List ℕ}, l.Sorted (· ≤ ·) → ∀ {m : ℕ}, l.getLast? = some m →
      m ∈ l ∧ ∀ b ∈ l, b ≤ m := by
  intro l
  induction l with
  | nil => intro _ m h; cases h
  | cons x xs ih =>
    intro hs m hlast
    rw [List.sorted_cons] at hs
    cases xs with
    | nil =>
      have hmx : m = x := by simpa using hlast.symm
      subst hmx
      simp
    | cons y ys =>
      rw [List.getLast?_cons_cons] at hlast
      obtain ⟨hmem, hmax⟩ := ih hs.2 hlast
      refine ⟨List.mem_cons_of_mem _ hmem, ?_⟩
      intro b hb
      rcases List.mem_cons.mp hb with rfl | hb2
      · exact hs.1 m hmem
      · exact hmax b hb2

/-- C1: for every pair of timing tables over the same nonempty set of row
lengths, the crossover search scans the lengths in ascending order and
returns the first length at which the online (Pebay) timing is strictly
below the two-pass timing; when no such length exists it returns the
largest tested length. -/
theorem crossover_first_win_or_max (keys : List ℕ) (hne : keys ≠ [])
    (twopass pebay : ℕ → ℚ) :
    ∃ n, find_crossover keys twopass pebay = some n ∧ n ∈ keys ∧
      ((pebay n < twopass n ∧ ∀ m ∈ keys, m < n → ¬ pebay m < twopass m) ∨
       ((∀ m ∈ keys, ¬ pebay m < twopass m) ∧ ∀ m ∈ keys, m ≤ n)) := by
  unfold find_crossover
  cases hf : (sortedKeys keys).find? (fun n => decide (pebay n < twopass n)) with
  | some n =>
    refine ⟨n, rfl, mem_sortedKeys.mp (List.mem_of_find?_eq_some hf), Or.inl ⟨?_, ?_⟩⟩
    · simpa using List.find?_some hf
    · intro m hm hlt
      simpa using find?_sorted_not_before (sorted_sortedKeys keys) hf m (mem_sortedKeys.mpr hm) hlt
  | none =>
    have hsne : sortedKeys keys ≠ [] := sortedKeys_ne_nil hne
    obtain ⟨m, hm⟩ := Option.isSome_iff_exists.mp (List.getLast?_isSome.mpr hsne)
    obtain ⟨hmem, hmax⟩ := getLast?_sorted_max (sorted_sortedKeys keys) hm
    refine ⟨m, by rw [hm], mem_sortedKeys.mp hmem, Or.inr ⟨?_, ?_⟩⟩
    · intro b hb
      simpa using List.find?_eq_none.mp hf b (mem_sortedKeys.mpr hb)
    · intro b hb
      exact hmax b (mem_sortedKeys.mpr hb)

/-- Witness for C1 on the spec's concrete test vector, where the computed
crossover is 16. -/
theorem crossover_first_win_or_max_witness :
    ([8, 16, 32] : List ℕ) ≠ [] ∧
      (∃ n, find_crossover [8, 16, 32] tpEx pbEx = some n ∧ n ∈ ([8, 16, 32] : List ℕ) ∧
        ((pbEx n < tpEx n ∧ ∀ m ∈ ([8, 16, 32] : List ℕ), m < n → ¬ pbEx m < tpEx m) ∨
         ((∀ m ∈ ([8, 16, 32] : List ℕ), ¬ pbEx m < tpEx m) ∧
           ∀ m ∈ ([8, 16, 32] : List ℕ), m ≤ n))) :=
  ⟨by decide, crossover_first_win_or_max [8, 16, 32] (by decide) tpEx pbEx⟩

/-- Sanity check of the spec's two crossover test vectors: first win at 16,
and the all-losing online table defaults to the largest length 32. -/
theorem crossover_example_values :
    find_crossover [8, 16, 32] tpEx pbEx = some 16 ∧
      find_crossover [8, 16, 32] tpEx pbLose = some 32 := by
  constructor <;> decide

/-- C9: the crossover comparison is a plain strict comparison with no
division, so it is total on every rational timing table, including tables
with zero or negative measured durations; and a length at which the two
timings tie is never selected as the crossover: if the returned length is a
tie it is only the largest-length fallback, reached when the online
algorithm won nowhere (favoring two-pass). -/
theorem crossover_total_tie_favors_twopass (keys : List ℕ) (hne : keys ≠ [])
    (twopass pebay : ℕ → ℚ) :
    ∃ n, find_crossover keys twopass pebay = some n ∧ n ∈ keys ∧
      (pebay n = twopass n →
        (∀ m ∈ keys, twopass m ≤ pebay m) ∧ ∀ m ∈ keys, m ≤ n) := by
  unfold find_crossover
  cases hf : (sortedKeys keys).find? (fun n => decide (pebay n < twopass n)) with
  | some n =>
    refine ⟨n, rfl, mem_sortedKeys.mp (List.mem_of_find?_eq_some hf), ?_⟩
    intro htie
    have hlt : pebay n < twopass n := by simpa using List.find?_some hf
    rw [htie] at hlt
    exact absurd hlt (lt_irrefl _)
  | none =>
    have hsne : sortedKeys keys ≠ [] := sortedKeys_ne_nil hne
    obtain ⟨m, hm⟩ := Option.isSome_iff_exists.mp (List.getLast?_isSome.mpr hsne)
    obtain ⟨hmem, hmax⟩ := getLast?_sorted_max (sorted_sortedKeys keys) hm
    refine ⟨m, by rw [hm], mem_sortedKeys.mp hmem, ?_⟩
    intro _
    refine ⟨?_, fun b hb => hmax b (mem_sortedKeys.mpr hb)⟩
    intro b hb
    have := List.find?_eq_none.mp hf b (mem_sortedKeys.mpr hb)
    simpa using le_of_not_lt (by simpa using this)

/-- Witness for C9: an anomalous table where every measured duration is
zero; the search still returns a length (the largest, 32) and the tie there
favors the two-pass algorithm. -/
theorem crossover_total_tie_favors_twopass_witness :
    ([8, 16, 32] : List ℕ) ≠ [] ∧
      (∃ n, find_crossover [8, 16, 32] tpZero tpZero = some n ∧ n ∈ ([8, 16, 32] : List ℕ) ∧
        (tpZero n = tpZero n →
          (∀ m ∈ ([8, 16, 32] : List ℕ), tpZero m ≤ tpZero m) ∧
            ∀ m ∈ ([8, 16, 32] : List ℕ), m ≤ n)) :=
  ⟨by decide, crossover_total_tie_favors_twopass [8, 16, 32] (by decide) tpZero tpZero⟩

/-- C2: the benchmark sweep used by `get_optimal_threshold` when it tunes is
exactly the ascending arithmetic progression starting at 8 with step 32,
bounded above by 2048 inclusive (so its members are the lengths 8 + 32k that
do not exceed 2048); and the tuner's benchmarking path computes its threshold
as the crossover over precisely this sweep. -/
theorem row_lengths_sweep :
    (∀ n : ℕ, n ∈ row_lengths ↔ ((∃ k, n = 8 + 32 * k) ∧ n ≤ 2048)) ∧
      List.Sorted (· < ·) row_lengths ∧
      (∀ env : TunerEnv, (get_optimal_threshold env true).benchmarked = true ∧
        (get_optimal_threshold env true).threshold =
          (((find_crossover row_lengths env.twopass_times env.pebay_times).getD 0 : ℕ) : ℤ)) := by
  refine ⟨?_, ?_, ?_⟩
  · intro n
    rw [row_lengths, List.mem_range']
    constructor
    · rintro ⟨i, hi, rfl⟩
      exact ⟨⟨i, by ring⟩, by omega⟩
    · rintro ⟨⟨k, rfl⟩, hle⟩
      exact ⟨k, by omega, by ring⟩
  · decide
  · intro env
    cases hw : env.write_ok <;>
      simp [get_optimal_threshold, fresh_threshold, hw]

/-- C3 counterexample: the synthetic benchmark rows never contain 127, even
at length 256 (one full int8 cycle), so their values do not cycle through
the full signed 8-bit range. -/
theorem bench_row_misses_127 : (127 : ℤ) ∉ bench_row 256 := by decide

/-- C3 (amended): for every requested length `n`, the benchmark harness
generates the deterministic synthetic row whose i-th value is
`i % 128 - 64`; the values cycle with period 128 through the sub-range
-64..63 of int8 (covering all of it once `n ≥ 128`), not through the full
signed 8-bit range. -/
theorem bench_row_amended (n : ℕ) :
    (bench_row n).length = n ∧
      (∀ i : ℕ, i < n → (bench_row n).getD i 0 = (i : ℤ) % 128 - 64) ∧
      (∀ x ∈ bench_row n, -64 ≤ x ∧ x ≤ 63) ∧
      (128 ≤ n → ∀ v : ℤ, -64 ≤ v → v ≤ 63 → v ∈ bench_row n) := by
  refine ⟨by rw [bench_row, List.length_map, List.length_range], ?_, ?_, ?_⟩
  · intro i hi
    rw [bench_row, List.getD_eq_getElem?_getD, List.getElem?_map, List.getElem?_range hi]
    rfl
  · intro x hx
    simp only [bench_row, List.mem_map, List.mem_range] at hx
    obtain ⟨i, _, rfl⟩ := hx
    omega
  · intro hn v hv1 hv2
    simp only [bench_row, List.mem_map, List.mem_range]
    have h1 : ((v + 64).toNat : ℤ) = v + 64 := by omega
    refine ⟨(v + 64).toNat, by omega, ?_⟩
    rw [h1]
    omega

/-- Witness for C3 (amended) at length 130: the value -64 is generated. -/
theorem bench_row_amended_witness :
    128 ≤ 130 ∧ (-64 : ℤ) ≤ -64 ∧ (-64 : ℤ) ≤ 63 ∧ (-64 : ℤ) ∈ bench_row 130 :=
  ⟨by decide, by decide, by decide,
    (bench_row_amended 130).2.2.2 (by decide) (-64) (by decide) (by decide)⟩

/-- A concrete tuner environment: corrupt cache file, succeeding write. -/
def envEx : TunerEnv :=
  { system_id := "sys-a", cache := CacheState.corrupt,
    twopass_times := tpEx, pebay_times := pbEx, write_ok := true, open_ok := true }

/-- A concrete tuner environment: missing cache file, and a write that
fails at `open` itself (e.g. permissions), before any truncation. -/
def envEx2 : TunerEnv :=
  { system_id := "sys-b", cache := CacheState.missing,
    twopass_times := tpEx, pebay_times := pbEx, write_ok := false, open_ok := false }

/-- A concrete tuner environment whose cache record passes the loader's
two-field check despite being schema-mismatched: the fingerprint matches and
a `threshold` key exists, but its value is JSON null and the persisted
timing tables are absent. -/
def envBad : TunerEnv :=
  { system_id := "sys-c",
    cache := CacheState.record (some "sys-c") (some (JVal.jother "null")) false,
    twopass_times := tpEx, pebay_times := pbEx, write_ok := true, open_ok := true }

/-- A concrete tuner environment whose cache record has a matching
fingerprint and an integer threshold 999 but no persisted timing tables. -/
def envBadTables : TunerEnv :=
  { system_id := "sys-e",
    cache := CacheState.record (some "sys-e") (some (JVal.jint 999)) false,
    twopass_times := tpEx, pebay_times := pbEx, write_ok := true, open_ok := true }

/-- C4 counterexample: two schema-mismatched cache states on which the claim
fails.  A record with matching fingerprint and a `threshold` key holding
JSON null (timing tables absent) is returned as a cache hit — no
re-benchmarking, and the returned value is the null, not a freshly computed
threshold; likewise a record with an integer threshold but no timing tables
hits and returns the stored 999 without benchmarking. -/
theorem tuner_schema_mismatch_hits_cache :
    ((get_optimal_threshold envBad false).benchmarked = false ∧
      (get_optimal_threshold envBad false).returned = JVal.jother "null") ∧
      ((get_optimal_threshold envBadTables false).benchmarked = false ∧
        (get_optimal_threshold envBadTables false).returned = JVal.jint 999) := by
  refine ⟨⟨?_, ?_⟩, ?_, ?_⟩ <;> rfl

/-- C4 (amended): whenever the cache state fails the loader's two-field
check — missing file, unreadable or corrupt content, stored fingerprint
absent or differing from the fresh one, or `threshold` key absent — a
non-forced call falls through to benchmarking and returns the freshly
computed crossover threshold; the model function is total, so nothing is
raised to the caller.  (A parsed record that passes the two-field check is
returned as a hit even when otherwise schema-mismatched: with the timing
tables missing, or with a non-integer threshold value, which is returned
as-is without benchmarking.) -/
theorem tuner_cache_fallback (env : TunerEnv)
    (h : ∀ (v : JVal) (tb : Bool),
      env.cache ≠ CacheState.record (some env.system_id) (some v) tb) :
    (get_optimal_threshold env false).benchmarked = true ∧
      (get_optimal_threshold env false).threshold = fresh_threshold env ∧
      (get_optimal_threshold env false).returned = JVal.jint (fresh_threshold env) := by
  have hmiss : cacheHit env.system_id env.cache = none := by
    cases hc : env.cache with
    | missing => rfl
    | corrupt => rfl
    | record sid v tb =>
      cases sid with
      | none => rfl
      | some s =>
        cases v with
        | none => rfl
        | some jv =>
          show (if s = env.system_id then some jv else none) = none
          rw [if_neg]
          intro hs
          exact h jv tb (by rw [hc, hs])
  cases hw : env.write_ok <;>
    simp [get_optimal_threshold, hmiss, hw]

/-- Witness for C4 (amended) on a corrupt cache file. -/
theorem tuner_cache_fallback_witness :
    (∀ (v : JVal) (tb : Bool),
        envEx.cache ≠ CacheState.record (some envEx.system_id) (some v) tb) ∧
      ((get_optimal_threshold envEx false).benchmarked = true ∧
        (get_optimal_threshold envEx false).threshold = fresh_threshold envEx ∧
        (get_optimal_threshold envEx false).returned = JVal.jint (fresh_threshold envEx)) := by
  refine ⟨?_, tuner_cache_fallback envEx ?_⟩ <;>
    exact fun v tb hcontra => CacheState.noConfusion hcontra

/-- C5: a forced call with a succeeding write persists its freshly computed
threshold, and an immediately following non-forced call under the same
fingerprint (whatever its own timing oracles or write outcome would be)
returns that identical threshold without running the benchmark harness. -/
theorem tuner_cache_round_trip (env : TunerEnv) (tp2 pb2 : ℕ → ℚ) (w2 : Bool)
    (hw : env.write_ok = true) :
    (get_optimal_threshold env true).benchmarked = true ∧
      (get_optimal_threshold
          { system_id := env.system_id,
            cache := (get_optimal_threshold env true).cache,
            twopass_times := tp2, pebay_times := pb2, write_ok := w2 } false).threshold =
        (get_optimal_threshold env true).threshold ∧
      (get_optimal_threshold
          { system_id := env.system_id,
            cache := (get_optimal_threshold env true).cache,
            twopass_times := tp2, pebay_times := pb2, write_ok := w2 } false).benchmarked =
        false := by
  simp [get_optimal_threshold, hw, cacheHit, JVal.toIntD]

/-- Witness for C5 in the corrupt-cache environment with a succeeding write,
followed by a call whose own write would fail. -/
theorem tuner_cache_round_trip_witness :
    envEx.write_ok = true ∧
      ((get_optimal_threshold envEx true).benchmarked = true ∧
        (get_optimal_threshold
            { system_id := envEx.system_id,
              cache := (get_optimal_threshold envEx true).cache,
              twopass_times := tpEx, pebay_times := pbEx, write_ok := false } false).threshold =
          (get_optimal_threshold envEx true).threshold ∧
        (get_optimal_threshold
            { system_id := envEx.system_id,
              cache := (get_optimal_threshold envEx true).cache,
              twopass_times := tpEx, pebay_times := pbEx, write_ok := false } false).benchmarked =
          false) :=
  ⟨rfl, tuner_cache_round_trip envEx tpEx pbEx false rfl⟩

/-- A concrete tuner environment holding a previously persisted, well-formed
record, whose next write fails only after `open(CONFIG_PATH, "w")` has
already truncated the file (e.g. disk full during `json.dump`). -/
def envTrunc : TunerEnv :=
  { system_id := "sys-d",
    cache := CacheState.record (some "sys-d") (some (JVal.jint 7)) true,
    twopass_times := tpEx, pebay_times := pbEx, write_ok := false, open_ok := true }

/-- C6 counterexample: a forced retune whose cache write fails after the
truncating open does not leave the prior state undisturbed — the previously
persisted record is destroyed (the file is left unreadable), refuting the
claim that only persistence is skipped. -/
theorem tuner_write_failure_truncates :
    envTrunc.write_ok = false ∧
      (get_optimal_threshold envTrunc true).cache = CacheState.corrupt ∧
      (get_optimal_threshold envTrunc true).cache ≠ envTrunc.cache := by
  refine ⟨rfl, rfl, ?_⟩
  intro hcontra
  exact CacheState.noConfusion hcontra

/-- C6 (amended): when the cache write fails, a call that benchmarks
(because it was forced, or because the cache-load test missed) still
returns the threshold it freshly computed in that call and only flags the
non-fatal warning — the model is total, so the failure never propagates.
Persistence is skipped; the cache file keeps its prior state only when the
failure precedes the truncating open (e.g. permissions), while a failure
after a successful `open(..., "w")` leaves the prior record destroyed
(unreadable). -/
theorem tuner_write_failure_nonfatal (env : TunerEnv) (force : Bool)
    (hw : env.write_ok = false)
    (hbench : force = true ∨ cacheHit env.system_id env.cache = none) :
    (get_optimal_threshold env force).threshold = fresh_threshold env ∧
      (get_optimal_threshold env force).returned = JVal.jint (fresh_threshold env) ∧
      (get_optimal_threshold env force).benchmarked = true ∧
      (get_optimal_threshold env force).warned = true ∧
      (get_optimal_threshold env force).cache =
        (if env.open_ok then CacheState.corrupt else env.cache) := by
  rcases hbench with rfl | hmiss
  · simp [get_optimal_threshold, hw]
  · cases force <;> simp [get_optimal_threshold, hw, hmiss]

/-- Witness for C6 (amended): a forced retune in the environment whose
write fails at open, so the prior (missing) state is kept. -/
theorem tuner_write_failure_nonfatal_witness :
    envEx2.write_ok = false ∧
      (true = true ∨ cacheHit envEx2.system_id envEx2.cache = none) ∧
      ((get_optimal_threshold envEx2 true).threshold = fresh_threshold envEx2 ∧
        (get_optimal_threshold envEx2 true).returned = JVal.jint (fresh_threshold envEx2) ∧
        (get_optimal_threshold envEx2 true).benchmarked = true ∧
        (get_optimal_threshold envEx2 true).warned = true ∧
        (get_optimal_threshold envEx2 true).cache =
          (if envEx2.open_ok then CacheState.corrupt else envEx2.cache)) :=
  ⟨rfl, Or.inl rfl, tuner_write_failure_nonfatal envEx2 true rfl (Or.inl rfl)⟩

/-- A concrete stand-in for the opaque two-pass accumulator, used in
witnesses: the row mean shifted by the moment index. -/
def tpAlgo : List ℤ → Fin 4 → ℚ :=
  fun row i => (row.sum : ℚ) / (row.length : ℚ) + ((i : ℕ) : ℚ)

/-- A concrete stand-in for the opaque online accumulator, used in
witnesses: the row mean scaled by the moment index. -/
def pbAlgo : List ℤ → Fin 4 → ℚ :=
  fun row i => (row.sum : ℚ) / (row.length : ℚ) * ((i : ℕ) : ℚ)

theorem compute_moment_rows_foldl (twopass pebay : List ℤ → Fin 4 → ℚ)
    (threshold : ℤ) (data : List (List ℤ)) :
    ∀ acc : Fin 4 → List ℚ,
      data.foldl
        (fun results row =>
          let algo := if (row.length : ℤ) < threshold then twopass else pebay
          fun i => results i ++ [round_half_up (algo row i)])
        acc =
      fun i => acc i ++ data.map
        (fun row =>
          round_half_up ((if (row.length : ℤ) < threshold then twopass else pebay) row i)) := by
  induction data with
  | nil =>
    intro acc
    funext i
    simp
  | cons row rest ih =>
    intro acc
    rw [List.foldl_cons, ih]
    funext i
    simp [List.append_assoc]

theorem compute_moment_rows_eq_map (twopass pebay : List ℤ → Fin 4 → ℚ)
    (data : List (List ℤ)) (threshold : ℤ) :
    compute_moment_rows twopass pebay data threshold =
      fun i => data.map
        (fun row =>
          round_half_up ((if (row.length : ℤ) < threshold then twopass else pebay) row i)) := by
  rw [compute_moment_rows, compute_moment_rows_foldl]
  funext i
  simp

/-- C8: for every matrix and threshold, the dispatcher returns exactly four
sequences (one per moment index in `Fin 4`), each with exactly one element
per input row, and the i-th sequence is the row-order-preserving map
sending the j-th row to its rounded i-th moment. -/
theorem dispatcher_shape (twopass pebay : List ℤ → Fin 4 → ℚ)
    (data : List (List ℤ)) (threshold : ℤ) :
    (∀ i : Fin 4, (compute_moment_rows twopass pebay data threshold i).length = data.length) ∧
      (∀ i : Fin 4, compute_moment_rows twopass pebay data threshold i =
        data.map (fun row =>
          round_half_up ((if (row.length : ℤ) < threshold then twopass else pebay) row i))) := by
  refine ⟨fun i => ?_, fun i => ?_⟩ <;> rw [compute_moment_rows_eq_map]
  simp

/-- C7: for every row of the matrix and every integer threshold, the
dispatcher takes the j-th output value of each moment sequence from the
two-pass accumulator exactly when the j-th row is strictly shorter than the
threshold, and from the online (Pebay) accumulator when its length is at or
above the threshold. -/
theorem dispatcher_selection (twopass pebay : List ℤ → Fin 4 → ℚ)
    (data : List (List ℤ)) (threshold : ℤ) (i : Fin 4) (j : ℕ)
    (hj : j < data.length) :
    (compute_moment_rows twopass pebay data threshold i).getD j 0 =
      if ((data.getD j []).length : ℤ) < threshold
      then round_half_up (twopass (data.getD j []) i)
      else round_half_up (pebay (data.getD j []) i) := by
  have hd : data.getD j [] = data[j] := by
    rw [List.getD_eq_getElem?_getD, List.getElem?_eq_getElem hj]
    rfl
  rw [compute_moment_rows_eq_map, List.getD_eq_getElem?_getD, List.getElem?_map,
    List.getElem?_eq_getElem hj, hd]
  by_cases hlen : ((data[j].length : ℤ) < threshold) <;> simp [hlen]

/-- Witness for C7 on the spec's 2×3 example matrix with threshold 10
(both rows are shorter than 10, so two-pass is selected). -/
theorem dispatcher_selection_witness :
    (0 : ℕ) < ([[1, 2, 3], [4, 5, 6]] : List (List ℤ)).length ∧
      (compute_moment_rows tpAlgo pbAlgo [[1, 2, 3], [4, 5, 6]] 10 0).getD 0 0 =
        if ((([[1, 2, 3], [4, 5, 6]] : List (List ℤ)).getD 0 []).length : ℤ) < 10
        then round_half_up (tpAlgo (([[1, 2, 3], [4, 5, 6]] : List (List ℤ)).getD 0 []) 0)
        else round_half_up (pbAlgo (([[1, 2, 3], [4, 5, 6]] : List (List ℤ)).getD 0 []) 0) :=
  ⟨by decide, dispatcher_selection tpAlgo pbAlgo [[1, 2, 3], [4, 5, 6]] 10 0 0 (by decide)⟩

/-- C10 (implicit): every value the dispatcher emits is not the raw moment
of the selected accumulator but that moment passed through the two-decimal
rounding helper; in particular each emitted value is an integer multiple of
1/100, so the per-row output never carries more than two decimal digits. -/
theorem dispatcher_rounded_output (twopass pebay : List ℤ → Fin 4 → ℚ)
    (data : List (List ℤ)) (threshold : ℤ) (i : Fin 4) (x : ℚ)
    (hx : x ∈ compute_moment_rows twopass pebay data threshold i) :
    (∃ row ∈ data, x =
        round_half_up ((if (row.length : ℤ) < threshold then twopass else pebay) row i)) ∧
      ∃ k : ℤ, x = (k : ℚ) / 100 := by
  rw [compute_moment_rows_eq_map] at hx
  obtain ⟨row, hrow, heq⟩ := List.mem_map.mp hx
  refine ⟨⟨row, hrow, heq.symm⟩,
    ⟨round (100 * ((if (row.length : ℤ) < threshold then twopass else pebay) row i)), ?_⟩⟩
  rw [← heq]
  rfl

/-- Witness for C10 on a single 3-element row with threshold 10. -/
theorem dispatcher_rounded_output_witness :
    round_half_up (tpAlgo [1, 2, 3] 0) ∈ compute_moment_rows tpAlgo pbAlgo [[1, 2, 3]] 10 0 ∧
      ((∃ row ∈ ([[1, 2, 3]] : List (List ℤ)), round_half_up (tpAlgo [1, 2, 3] 0) =
          round_half_up ((if (row.length : ℤ) < 10 then tpAlgo else pbAlgo) row 0)) ∧
        ∃ k : ℤ, round_half_up (tpAlgo [1, 2, 3] 0) = (k : ℚ) / 100) := by
  have hx : round_half_up (tpAlgo [1, 2, 3] 0) ∈
      compute_moment_rows tpAlgo pbAlgo [[1, 2, 3]] 10 0 := by
    rw [compute_moment_rows_eq_map]
    simp
  exact ⟨hx, dispatcher_rounded_output tpAlgo pbAlgo [[1, 2, 3]] 10 0 _ hx⟩

end MomentAnalysis
